import Mathlib

/-!
Shallow embedding of the Moroccan parliament legislation scraper
(`src/moroccan_parliament_scraper/core/legislation_scraper.py`) in Lean 4,
together with theorems settling the frozen claims about it.

Conventions of the embedding:
* Python strings are Lean `String`s; `pat in s` is `containsSub s pat`.
* The handful of regular expressions used by the scraper are implemented
  character by character with Python `re.search` semantics (leftmost match,
  greedy character classes, lazy `+?` groups, lookahead) specialised to the
  concrete patterns appearing in the source.
* BeautifulSoup selections are the boundary of the embedding: a fetched HTML
  page is modelled as a record holding exactly the element data the scraper
  selects from the soup (anchor hrefs, `dp-block` texts, rapport headings and
  their located containers).
* Python exceptions are modelled with `Except`/`Option`; `datetime.now()` is
  an explicit `now` parameter; the filesystem is a function from paths to
  optional file contents.
-/

namespace ParliamentScraper

/-- Python `\d` (ASCII digits as used by the scraped pages). -/
def isDigitCh (c : Char) : Bool := c.isDigit

/-- Python `\s`. -/
def isSpaceCh (c : Char) : Bool := c.isWhitespace

/-- Does `l` start with the pattern `pat`? -/
def listStartsWith : List Char → List Char → Bool
  | [], _ => true
  | _ :: _, [] => false
  | p :: ps, c :: cs => p = c && listStartsWith ps cs

/-- Does `l` contain `pat` as a contiguous sublist? -/
def hasSubList : List Char → List Char → Bool
  | [], pat => listStartsWith pat []
  | c :: t, pat => listStartsWith pat (c :: t) || hasSubList t pat

/-- Python `pat in s` (substring containment). -/
def containsSub (s pat : String) : Bool := hasSubList s.data pat.data

/-- Case-insensitive containment, mirroring `re.IGNORECASE` searches for a
literal-prefix pattern such as `Rapport de.*`. -/
def containsSubCI (s pat : String) : Bool :=
  hasSubList (s.data.map Char.toLower) (pat.data.map Char.toLower)

/-- Match the literal `lit` at the head of `l`, returning the rest. -/
def dropLit : List Char → List Char → Option (List Char)
  | [], l => some l
  | _ :: _, [] => none
  | p :: ps, c :: cs => if p = c then dropLit ps cs else none

/-- The `re.search` driver: try the position matcher `m` at every start position,
leftmost success first (our patterns never match the empty suffix except via
`m` itself). -/
def searchFirst (m : List Char → Option α) : List Char → Option α
  | [] => m []
  | c :: t =>
    match m (c :: t) with
    | some r => some r
    | none => searchFirst m t

/-- Position matcher for `\d+SEP\d+` (with `SEP` the literal `.` or `/`):
greedy digit runs around the separator; the capture is the whole number.
Greedy `\d+` before a literal separator cannot usefully backtrack, since every
shorter digit prefix is followed by a digit, not the separator. -/
def matchNumSep (sep : Char) (l : List Char) : Option (String × List Char) :=
  let d1 := l.takeWhile isDigitCh
  let r1 := l.dropWhile isDigitCh
  if d1.isEmpty then none
  else
    match r1 with
    | c :: r2 =>
      if c = sep then
        let d2 := r2.takeWhile isDigitCh
        if d2.isEmpty then none
        else some ((d1 ++ sep :: d2).asString, r2.dropWhile isDigitCh)
      else none
    | [] => none

/-- Position matcher for `N°\s*(\d+SEP\d+)`; the capture excludes the `N°`
prefix, as `group(1)` does. -/
def matchNumPrefixed (sep : Char) (l : List Char) : Option (String × List Char) :=
  match l with
  | 'N' :: '°' :: r => matchNumSep sep (r.dropWhile isSpaceCh)
  | _ => none

/-- The `extract_law_number` (legislation_scraper.py:427-442): try the four
patterns `N°\s*(\d+\.\d+)`, `N°\s*(\d+/\d+)`, `(\d+\.\d+)`, `(\d+/\d+)` in
that order; the first `re.search` hit wins and its first group is returned;
empty string when none match. -/
def extract_law_number (text : String) : String :=
  match searchFirst (matchNumPrefixed '.') text.data with
  | some r => r.1
  | none =>
    match searchFirst (matchNumPrefixed '/') text.data with
    | some r => r.1
    | none =>
      match searchFirst (matchNumSep '.') text.data with
      | some r => r.1
      | none =>
        match searchFirst (matchNumSep '/') text.data with
        | some r => r.1
        | none => ""

/-- Python `str.split()` with no argument: split on whitespace runs, dropping
empty words. `cur` is the word being read (reversed), `acc` the words read so
far (reversed). -/
def splitWsAux (cur : List Char) (acc : List (List Char)) : List Char → List (List Char)
  | [] => if cur.isEmpty then acc.reverse else (cur.reverse :: acc).reverse
  | c :: t =>
    if isSpaceCh c then
      if cur.isEmpty then splitWsAux [] acc t else splitWsAux [] (cur.reverse :: acc) t
    else splitWsAux (c :: cur) acc t

/-- Python `’ ’.join(words)`. -/
def joinWords : List (List Char) → List Char
  | [] => []
  | [w] => w
  | w :: ws => w ++ ' ' :: joinWords ws

/-- The `clean_title` (legislation_scraper.py:421-425): `’ ’.join(title.split())`. -/
def clean_title (title : String) : String :=
  (joinWords (splitWsAux [] [] title.data)).asString

/-- The `detect_lecture_type` (legislation_scraper.py:885-892). -/
def detect_lecture_type (title : String) : String :=
  if containsSub title "Lecture 2" then "Lecture 2"
  else if containsSub title "Lecture 1" then "Lecture 1"
  else "Unknown"

/-- Python `str.strip()` on the character list. -/
def trimChars (l : List Char) : List Char :=
  ((l.dropWhile isSpaceCh).reverse.dropWhile isSpaceCh).reverse

/-- Python `s.strip()`. -/
def strTrim (s : String) : String := (trimChars s.data).asString

/-- The `s.startswith(pat)` (kernel-reducible, unlike `String.startsWith`). -/
def strStartsWith (s pat : String) : Bool := listStartsWith pat.data s.data

/-- Does `l` end with `pat`? -/
def listEndsWith (pat l : List Char) : Bool := listStartsWith pat.reverse l.reverse

/-- The `re.search(r’\.pdf$’, href)` as a boolean: `.pdf` at the end of the href
(`$` also matches just before a trailing newline). -/
def endsWithPdf (href : String) : Bool :=
  listEndsWith ".pdf".data href.data || listEndsWith ".pdf\n".data href.data

/-- The `urllib.parse.urljoin` specialised to the scraper’s base URL (a bare
`https://host` origin with empty path): absolute URLs pass through, any other
href resolves against the host root. -/
def urljoin (base url : String) : String :=
  if url.isEmpty then base
  else if strStartsWith url "http://" || strStartsWith url "https://" then url
  else if strStartsWith url "/" then base ++ url
  else base ++ "/" ++ url

/-- The `self.base_url` (legislation_scraper.py:33). -/
def base_url : String := "https://www.chambredesrepresentants.ma"

/-- Python `href.split(’/’)[-1]`: the suffix after the last `/` (the whole
string when there is no `/`). -/
def lastPathComponent (s : String) : String :=
  ((s.data.reverse.takeWhile (fun c => !(c = '/'))).reverse).asString

/-- Greedy character-class capture `[^excl]+`: the maximal nonempty run of
characters outside `excl`. -/
def classRun (excl : List Char) (l : List Char) : Option String :=
  let cap := l.takeWhile (fun c => !(excl.contains c))
  if cap.isEmpty then none else some cap.asString

/-- The class `[^,\n]` used by the date/vote captures. -/
def commaNl : List Char := [',', '\x0a']

/-- Position matcher for `LIT\s*([^,\n]+)`. Backtracking of `\s*` into the
capture can only produce captures that `strip()` to the empty string, which
every caller then treats exactly like its `’’` default, so the
maximal-whitespace reading is taken. -/
def litWsClassAt (lit : List Char) (l : List Char) : Option String :=
  match dropLit lit l with
  | some r => classRun commaNl (r.dropWhile isSpaceCh)
  | none => none

/-- The `re.search(r’LIT\s*([^,\n]+)’, s)` with `group(1).strip()` applied, as in
every use site of these patterns. -/
def reLitWsCapture (lit : String) (s : String) : Option String :=
  (searchFirst (litWsClassAt lit.data) s.data).map strTrim

/-- Position matcher for `LIT([^,\n]+)` (no `\s*`), used by the transfer
pattern whose literal ends in a space. -/
def litClassAt (lit : List Char) (l : List Char) : Option String :=
  match dropLit lit l with
  | some r => classRun commaNl r
  | none => none

/-- The `re.search(r’Date de dépôt:\s*([^,\n]+)’, s)`, stripped
(legislation_scraper.py:709). -/
def reDateDepot (s : String) : Option String := reLitWsCapture "Date de dépôt:" s

/-- The `re.search(r’Il a été transféré à la Chambre le ([^,\n]+)’, s)`, stripped
(legislation_scraper.py:725). -/
def reTransfer (s : String) : Option String :=
  (searchFirst (litClassAt "Il a été transféré à la Chambre le ".data) s.data).map strTrim

/-- The `re.search(r’Date d’adoption en séance plénière:\s*([^,\n]+)’, s)`,
stripped (legislation_scraper.py:818). -/
def reAdoption (s : String) : Option String :=
  reLitWsCapture "Date d\x27adoption en séance plénière:" s

/-- Position matcher for `Résultat du vote\s*:\s*([^,\n]+)`
(legislation_scraper.py:824). -/
def voteAt (l : List Char) : Option String :=
  match dropLit "Résultat du vote".data l with
  | some r =>
    match r.dropWhile isSpaceCh with
    | ':' :: r2 => classRun commaNl (r2.dropWhile isSpaceCh)
    | _ => none
  | none => none

/-- The `re.search(r’Résultat du vote\s*:\s*([^,\n]+)’, s)`, stripped. -/
def reVote (s : String) : Option String := (searchFirst voteAt s.data).map strTrim

/-- Lookahead `(?=Date de dépôt|$)` of the `Texte source` pattern. -/
def lookaheadDateDepot (t : List Char) : Bool :=
  listStartsWith "Date de dépôt".data t || t.isEmpty || t = ['\x0a']

/-- Lazy `([^D]+?)` before the lookahead: consume the shortest nonempty run of
non-`D` characters after which the lookahead holds. -/
def texteSourceLazy : List Char → List Char → Option String
  | _, [] => none
  | acc, c :: t =>
    if c = 'D' then none
    else if lookaheadDateDepot t then some (acc ++ [c]).asString
    else texteSourceLazy (acc ++ [c]) t

/-- Position matcher for `Texte source:\s*([^D]+?)(?=Date de dépôt|$)`
(legislation_scraper.py:703). -/
def texteSourceAt (l : List Char) : Option String :=
  match dropLit "Texte source:".data l with
  | some r => texteSourceLazy [] (r.dropWhile isSpaceCh)
  | none => none

/-- The `re.search` of the `Texte source` pattern, stripped. -/
def reTexteSource (s : String) : Option String :=
  (searchFirst texteSourceAt s.data).map strTrim

/-- Tail of the `Soumis à` patterns: the literal ` le ` followed by the greedy
`([^,\n]+)` second group. -/
def soumisCont (t : List Char) : Option String :=
  match dropLit " le ".data t with
  | some r => classRun commaNl r
  | none => none

/-- Lazy first group of the `Soumis à` patterns: grow the group one character
at a time (each character must satisfy the class given by `ok`), trying the
continuation ` le ([^,\n]+)` after every character. -/
def soumisLazy (ok : Char → Bool) : List Char → List Char → Option (String × String)
  | _, [] => none
  | acc, c :: t =>
    if !ok c then none
    else
      match soumisCont t with
      | some d => some ((acc ++ [c]).asString, d)
      | none => soumisLazy ok (acc ++ [c]) t

/-- The `re.search(r’Soumis à ([^le]+?) le ([^,\n]+)’, s)`
(legislation_scraper.py:737), both groups stripped as at the use site. -/
def reSoumisStrict (s : String) : Option (String × String) :=
  (searchFirst
      (fun l =>
        match dropLit "Soumis à ".data l with
        | some r => soumisLazy (fun c => !(c = 'l' || c = 'e')) [] r
        | none => none)
      s.data).map (fun p => (strTrim p.1, strTrim p.2))

/-- The `re.search(r’Soumis à (.+?) le ([^,\n]+)’, s)` (legislation_scraper.py:798),
both groups stripped; `.` excludes only the newline. -/
def reSoumisFlexible (s : String) : Option (String × String) :=
  (searchFirst
      (fun l =>
        match dropLit "Soumis à ".data l with
        | some r => soumisLazy (fun c => !(c = '\x0a')) [] r
        | none => none)
      s.data).map (fun p => (strTrim p.1, strTrim p.2))

example : reSoumisStrict "Soumis à Commission des finances le Mercredi 16 avril 2025, x" = none := by
  decide
example : reSoumisStrict "Soumis à X le Mardi 2 mai" = some ("X", "Mardi 2 mai") := by decide
example : reSoumisFlexible "Soumis à Commission des finances le Mercredi 16, x" =
    some ("Commission des finances", "Mercredi 16") := by decide
example : reDateDepot "bla Date de dépôt: Lundi 3 juin 2024, suite" = some ("Lundi 3 juin 2024") := by
  decide
example : reTexteSource "Texte source: Gouvernement Date de dépôt: x" = some ("Gouvernement") := by
  decide

example : extract_law_number "N°03.25 Loi organique 12/34" = "03.25" := by decide
example : extract_law_number "projet 12/34 x" = "12/34" := by decide
example : extract_law_number "rien" = "" := by decide
example : extract_law_number "N° 45.19 bla" = "45.19" := by decide
example : clean_title "  a   b  " = "a b" := by decide
example : detect_lecture_type "x Lecture 1 Lecture 2" = "Lecture 2" := by decide

/-- An anchor element with an `href`, as selected from the soup. `sizeNote` is
the result of `find_next_sibling(string=re.compile(r’\(\d+\.?\d*\s*[KM]B\)’))`
for this anchor, resolved at the soup boundary. -/
structure PdfAnchor where
  text : String
  href : String
  sizeNote : Option String
deriving DecidableEq, Repr

/-- One `div.dp-block` legislative-process block: its `get_text(strip=True)`
text and the hrefs of the anchors it contains, in document order. -/
structure DpBlock where
  text : String
  anchorHrefs : List String
deriving DecidableEq, Repr

/-- A candidate rapport heading: its text and the anchors of the container the
source locates for it (`find_next_sibling(’div’)`, else the `div.dp-related`
parent, else the forward walk to the next `div`); `none` when that DOM walk
finds no container. -/
structure RapportHeading where
  text : String
  containerAnchors : Option (List PdfAnchor)
deriving DecidableEq, Repr

/-- A fetched detail page, holding exactly the element data
`extract_legislation_page_details` selects from the soup. -/
structure DetailPage where
  h1Text : Option String
  anchors : List PdfAnchor
  dpBlocks : List DpBlock
  h3SectionHeads : List RapportHeading
  h4Heads : List RapportHeading
  fallbackHeads : List RapportHeading
deriving DecidableEq, Repr

/-- One entry of `rapport_section.files`. -/
structure RapportFile where
  title : String
  url : String
  filename : String
  size : Option String
deriving DecidableEq, Repr

/-- The `rapport_section` value. -/
structure RapportData where
  section_title : String
  files : List RapportFile
deriving DecidableEq, Repr

/-- The heading filter `re.compile(r’Rapport de.*’, re.IGNORECASE)` applied by
all three selection tiers. -/
def rapportMatch (h : RapportHeading) : Bool := containsSubCI h.text "Rapport de"

/-- The `rapport_sections` list (legislation_scraper.py:927-943): matching
`h3.section-title` headings, then matching `h4` headings; only when both tiers
are empty, the matching fallback headings. -/
def rapportSecs (page : DetailPage) : List RapportHeading :=
  let tier12 := (page.h3SectionHeads ++ page.h4Heads).filter rapportMatch
  if tier12.isEmpty then page.fallbackHeads.filter rapportMatch else tier12

/-- The inner file loop (legislation_scraper.py:978-1000): walk the container’s
PDF links left to right, skipping any whose resolved URL is already in
`seen_files`, and record `{title, url, filename, size?}` for the rest. -/
def collectSectionFiles : List PdfAnchor → List String → List RapportFile
  | [], _ => []
  | a :: rest, seen =>
    let fileUrl := urljoin base_url a.href
    if seen.contains fileUrl then collectSectionFiles rest seen
    else
      { title := a.text, url := fileUrl, filename := lastPathComponent a.href,
        size := a.sizeNote.map strTrim } :: collectSectionFiles rest (fileUrl :: seen)

/-- The files contributed by one rapport section: the container’s anchors
filtered to `.pdf` hrefs (`find_all(’a’, href=re.compile(r’\.pdf$’))`), then
deduplicated through a fresh `seen_files` set. -/
def sectionFiles (h : RapportHeading) : List RapportFile :=
  match h.containerAnchors with
  | none => []
  | some as => collectSectionFiles (as.filter (fun a => endsWithPdf a.href)) []

/-- The `extract_rapport_section` (legislation_scraper.py:924-1006): `None` when no
heading matches; otherwise the last matching section’s title (each loop
iteration overwrites `section_title`) with the concatenated per-section file
lists, and `None` again when that file list is empty. The body performs no
failing operation, so the `except` branch returning `None` is unreachable. -/
def extract_rapport_section (page : DetailPage) : Option RapportData :=
  let secs := rapportSecs page
  if secs.isEmpty then none
  else
    let files := (secs.map sectionFiles).flatten
    if files.isEmpty then none
    else some { section_title := (secs.map (fun h => h.text)).getLastD "", files := files }

/-- The `bureau_info` dict (legislation_scraper.py:694-721). -/
structure BureauInfo where
  texte_source : String
  date_depot : String
  texte_depose : String
  pdf_link : String
deriving DecidableEq, Repr

/-- A `(commission_name, submission_date)` submission tuple. -/
structure CommissionInfo where
  commission_name : String
  submission_date : String
deriving DecidableEq, Repr

/-- The `seance_info` dict (legislation_scraper.py:811-826). -/
structure SeanceInfo where
  adoption_date : String
  vote_results : String
deriving DecidableEq, Repr

/-- The `premiere_lecture` sub-record. The source stores plain dicts; an empty
dict is modelled as `none`. -/
structure PremiereLecture where
  bureau_de_la_chambre : Option BureauInfo
  commission : Option CommissionInfo
  seance_pleniere : Option SeanceInfo
deriving DecidableEq, Repr

/-- The `deuxieme_lecture` sub-record. -/
structure DeuxiemeLecture where
  transfer_date : Option String
  commission : Option CommissionInfo
  rapport_section : Option RapportData
deriving DecidableEq, Repr

/-- The hardcoded manual fallback tier of commission extraction
(legislation_scraper.py:747-795): literal `in` checks tried in `elif` order. -/
def manualFallbacks : List (String × CommissionInfo) :=
  [("Commission des finances et du développement économique le Mercredi 16 avril 2025",
    ⟨"Commission des finances et du développement économique", "Mercredi 16 avril 2025"⟩),
   ("Commission des finances et du développement économique le Vendredi 25 juillet 2025",
    ⟨"Commission des finances et du développement économique", "Vendredi 25 juillet 2025"⟩),
   ("Commission des secteurs productifs le Mardi 22 juillet 2025",
    ⟨"Commission des secteurs productifs", "Mardi 22 juillet 2025"⟩),
   ("Commission des secteurs sociaux le Vendredi 11 juillet 2025",
    ⟨"Commission des secteurs sociaux", "Vendredi 11 juillet 2025"⟩),
   ("Commission des infrastructures, de l\x27énergie, des mines, de l\x27environnement et du développement durable le Mardi 22 juillet 2025",
    ⟨"Commission des infrastructures, de l\x27énergie, des mines, de l\x27environnement et du développement durable", "Mardi 22 juillet 2025"⟩),
   ("Commission de l\x27enseignement, de la culture et de la communication le Lundi 7 juillet 2025",
    ⟨"Commission de l\x27enseignement, de la culture et de la communication", "Lundi 7 juillet 2025"⟩),
   ("Commission de l\x27enseignement, de la culture et de la communication le Lundi 19 mai 2025",
    ⟨"Commission de l\x27enseignement, de la culture et de la communication", "Lundi 19 mai 2025"⟩)]

/-- The three-tier commission extraction for one Commission block
(legislation_scraper.py:736-807): the strict regex, then the hardcoded
fallbacks, then the flexible regex; `none` when all fail (the source only
logs in that case). -/
def commissionFromBlock (text : String) : Option CommissionInfo :=
  match reSoumisStrict text with
  | some p => some ⟨p.1, p.2⟩
  | none =>
    match manualFallbacks.find? (fun q => containsSub text q.1) with
    | some q => some q.2
    | none =>
      match reSoumisFlexible text with
      | some p => some ⟨p.1, p.2⟩
      | none => none

/-- The mutable accumulators of the block loop: `bureau_data`,
`commission_submissions`, `seance_data` and the `transfer_date` key of
`deuxieme_lecture_data`. Each `dict.update` with a fully-keyed dict is a
wholesale replacement, so the dicts are `Option`s. -/
structure BlockState where
  bureau_data : Option BureauInfo
  commission_submissions : List CommissionInfo
  seance_data : Option SeanceInfo
  transfer_date : Option String
deriving DecidableEq, Repr

/-- The `bureau_info` extracted from one Bureau block
(legislation_scraper.py:694-721). -/
def bureauFromBlock (b : DpBlock) : BureauInfo :=
  { texte_source :=
      if containsSub b.text "Texte source:" then (reTexteSource b.text).getD "" else ""
    date_depot :=
      if containsSub b.text "Date de dépôt:" then (reDateDepot b.text).getD "" else ""
    texte_depose :=
      if containsSub b.text "Le texte tel qu\x27il a été déposé" then
        "Le texte tel qu\x27il a été déposé au Bureau de la Chambre"
      else ""
    pdf_link :=
      if containsSub b.text "Le texte tel qu\x27il a été déposé" then
        match b.anchorHrefs.find? endsWithPdf with
        | some h => urljoin base_url h
        | none => ""
      else "" }

/-- One iteration of the `for block in dp_blocks` loop
(legislation_scraper.py:689-828): classify by substring containment in `elif`
order (Bureau, then Commission, then Séance plénière) and update the
accumulators. -/
def processBlock (st : BlockState) (b : DpBlock) : BlockState :=
  if containsSub b.text "Bureau de la Chambre" then
    if containsSub b.text "Il a été transféré à la Chambre le" then
      match reTransfer b.text with
      | some d => { st with transfer_date := some d }
      | none => st
    else { st with bureau_data := some (bureauFromBlock b) }
  else if containsSub b.text "Commission" && containsSub b.text "Soumis à Commission" then
    match commissionFromBlock b.text with
    | some ci => { st with commission_submissions := st.commission_submissions ++ [ci] }
    | none => st
  else if containsSub b.text "Séance plénière" then
    { st with
      seance_data := some
        { adoption_date :=
            if containsSub b.text "Date d\x27adoption en séance plénière:" then
              (reAdoption b.text).getD ""
            else ""
          vote_results :=
            if containsSub b.text "Résultat du vote" then (reVote b.text).getD "" else "" } }
  else st

/-- The final details record. It carries exactly the keys of the `details`
dict as returned: the keys deleted by the `fields_to_remove` loop
(`adoption_date`, `vote_results`, `publication_date`) are not fields, and
`stage`, `premiere_lecture` and `deuxieme_lecture` are optional because their
keys are only conditionally written. -/
structure LegislationDetails where
  title : String
  law_number : String
  full_text : String
  pdf_url : String
  pdf_filename : String
  full_title : String
  page_content : String
  extraction_timestamp : String
  page : Nat
  scraped_at : String
  commission : String
  commission_id : String
  ministry_id : String
  stage : Option String
  premiere_lecture : Option PremiereLecture
  deuxieme_lecture : Option DeuxiemeLecture
deriving DecidableEq, Repr

/-- The body of `extract_legislation_page_details`
(legislation_scraper.py:619-879) after the page has been fetched: every
sub-field is recovered by a guarded pattern search that yields an `Option`, so
the body as a whole is a total function of the label and the page. `now` is
`datetime.now().isoformat()`. -/
def detailsBody (listing_title : String) (now : String) (page : DetailPage) :
    LegislationDetails :=
  let law_number := if listing_title.isEmpty then "" else extract_law_number listing_title
  let title := if listing_title.isEmpty then "" else clean_title listing_title
  let stage : Option String :=
    if containsSub listing_title "Lecture 2" then some "Lecture 2"
    else if containsSub listing_title "Lecture 1" then some "Lecture 1"
    else none
  let lecture_type := detect_lecture_type listing_title
  let pdfs := page.anchors.filter (fun a => endsWithPdf a.href)
  let pdf_url :=
    match pdfs.head? with
    | some a => if a.href.isEmpty then "" else urljoin base_url a.href
    | none => ""
  let pdf_filename :=
    match pdfs.head? with
    | some a => if a.href.isEmpty then "" else lastPathComponent a.href
    | none => ""
  let st := page.dpBlocks.foldl processBlock ⟨none, [], none, none⟩
  let commission_data : Option CommissionInfo :=
    if lecture_type = "Lecture 1" then st.commission_submissions.head?
    else if lecture_type = "Lecture 2" then st.commission_submissions.head?
    else none
  let second_commission : Option CommissionInfo :=
    if lecture_type = "Lecture 2" then st.commission_submissions[1]? else none
  let rapport : Option RapportData :=
    if lecture_type = "Lecture 2" then extract_rapport_section page else none
  let premiere : Option PremiereLecture :=
    if st.bureau_data.isSome then
      some ⟨st.bureau_data, commission_data, st.seance_data⟩
    else if st.seance_data.isSome then some ⟨none, none, st.seance_data⟩
    else none
  let hasDeux := st.transfer_date.isSome || second_commission.isSome || rapport.isSome
  { title := title
    law_number := law_number
    full_text := ""
    pdf_url := pdf_url
    pdf_filename := pdf_filename
    full_title := page.h1Text.getD ""
    page_content := ""
    extraction_timestamp := now
    page := 1
    scraped_at := now
    commission := ""
    commission_id := ""
    ministry_id := ""
    stage := stage
    premiere_lecture := premiere
    deuxieme_lecture :=
      if hasDeux then some ⟨st.transfer_date, second_commission, rapport⟩ else none }

/-- The `extract_legislation_page_details` (legislation_scraper.py:619-883): the
whole body runs inside `try/except`; the only failing operation is the
`_make_request` fetch, modelled by the `Except` argument, and any exception is
caught and turned into `None` — it never propagates to the caller. -/
def extract_legislation_page_details (listing_title now : String)
    (fetched : Except String DetailPage) : Option LegislationDetails :=
  match fetched with
  | Except.error _ => none
  | Except.ok page => some (detailsBody listing_title now page)

/-- One already-collected legislation record, restricted to the fields the
merge store, the ministry backfill and the persist step read or write. -/
structure StoredRecord where
  url : String
  law_number : String
  ministry : String
  ministry_id : String
deriving DecidableEq, Repr

/-- One entry of the fixed `ministry_approaches` list
(legislation_scraper.py:190-224). -/
structure MinistryFilter where
  ministry_id : String
  description : String
deriving DecidableEq, Repr

/-- The index of the last element satisfying `p` (Python dict comprehensions
keep the last binding for a repeated key). -/
def findLastIdx (p : α → Bool) : List α → Option Nat
  | [] => none
  | a :: t =>
    match findLastIdx p t with
    | some i => some (i + 1)
    | none => if p a then some 0 else none

/-- Lookup in `legislation_map = {leg[’url’]: leg for leg in results if
leg.get(’url’)}` (legislation_scraper.py:328), as the index of the record a
matching href reaches: records with a falsy url are not keys, and a repeated
url maps to its last record. -/
def legMapLookup (records : List StoredRecord) (href : String) : Option Nat :=
  if href.isEmpty then none else findLastIdx (fun r => r.url == href) records

/-- Replace the element at index `i` by `f` of it (out-of-range is the
identity); mirrors mutating the dict the index points at. -/
def listModify (f : α → α) : Nat → List α → List α
  | _, [] => []
  | 0, a :: t => f a :: t
  | n + 1, a :: t => a :: listModify f n t

/-- The `legislation[’ministry’] = ...; legislation[’ministry_id’] = ...`
(legislation_scraper.py:359-360). -/
def assignMinistry (m : MinistryFilter) (r : StoredRecord) : StoredRecord :=
  { r with ministry := m.description, ministry_id := m.ministry_id }

/-- One ministry’s pass (legislation_scraper.py:355-361): for every href
anchored on that ministry’s listing page, if the href is a key of the
legislation map (built once, from the original records), assign this
ministry’s description and id onto the record it reaches — unconditionally. -/
def ministryPass (map0 : String → Option Nat) (m : MinistryFilter) (links : List String)
    (records : List StoredRecord) : List StoredRecord :=
  links.foldl
    (fun recs href =>
      match map0 href with
      | some i => listModify (assignMinistry m) i recs
      | none => recs)
    records

/-- The ministry backfill sweep (legislation_scraper.py:322-368): build the
url-to-record map once, then run every ministry filter’s pass in list order.
`links m` holds the hrefs found on ministry `m`’s filtered listing page (empty
when that page reports no content or errors out). -/
def identify_ministries (ministries : List MinistryFilter)
    (links : MinistryFilter → List String) (records : List StoredRecord) :
    List StoredRecord :=
  ministries.foldl (fun recs m => ministryPass (legMapLookup records) m (links m) recs)
    records

/-- One listing page of a commission pass, as the loop body observes it:
whether the `Il n’ y a pas de contenu` marker is present, the extracted item
labels, whether processing the page raises (fetch failure after retries, or a
parse error — caught by the page-level `except`), and the unused
`check_pagination` result. -/
structure ListingPage where
  noContent : Bool
  items : List String
  raisesErr : Bool
  hasNext : Bool
deriving DecidableEq, Repr

/-- The page numbers visited by one commission’s `while True` paging loop
(legislation_scraper.py:235-313), starting at `start` (the source starts at
1). The loop breaks on the no-content marker or on an exception; an empty
item list only logs, and the `has_more_pages = check_pagination(soup)` result
is never read, so neither stops the loop. `fuel` bounds the unrolling — the
source loop itself has no built-in bound. -/
def commissionPassVisits (pages : Nat → ListingPage) : Nat → Nat → List Nat
  | 0, _ => []
  | fuel + 1, start =>
    if (pages start).raisesErr then [start]
    else if (pages start).noContent then [start]
    else start :: commissionPassVisits pages fuel (start + 1)

/-- The `check_existing_data` (legislation_scraper.py:894-922). `snapshotFile` is
the `data` list of `data/extracted-data-<year>.json`, or `none` when the file
does not exist (a read/parse error also returns `False`, like the `none`
branch). -/
def check_existing_data (force_rescrape : Bool) (law_number : String)
    (snapshotFile : Option (List StoredRecord)) : Bool :=
  if force_rescrape then false
  else if law_number.isEmpty then false
  else
    match snapshotFile with
    | none => false
    | some data => data.any (fun item => item.law_number == law_number)

/-- The skip decision of the crawl loop (legislation_scraper.py:271-274):
`if law_number and self.check_existing_data(law_number): continue`. -/
def item_skipped (force_rescrape : Bool) (law_number : String)
    (snapshotFile : Option (List StoredRecord)) : Bool :=
  !law_number.isEmpty && check_existing_data force_rescrape law_number snapshotFile

/-- The request/proxy configuration read by `_make_request` and
`_rotate_proxy` from the config manager. -/
structure RequestConfig where
  retry_attempts : Nat
  enable_proxies : Bool
  proxy_rotation : Bool
  proxies : List String
deriving DecidableEq, Repr

/-- The shared session state: the proxy-rotation cursor and the proxy
currently installed on the session. -/
structure SessionState where
  current_proxy_index : Nat
  session_proxy : Option String
deriving DecidableEq, Repr

/-- The `_rotate_proxy` (legislation_scraper.py:76-84): when proxies and rotation
are enabled and the list is nonempty, advance the shared cursor and install
`proxies[index % len]`. -/
def rotate_proxy (cfg : RequestConfig) (s : SessionState) : SessionState :=
  if cfg.enable_proxies && cfg.proxy_rotation then
    if cfg.proxies.isEmpty then s
    else
      { current_proxy_index := s.current_proxy_index + 1,
        session_proxy := cfg.proxies[(s.current_proxy_index + 1) % cfg.proxies.length]? }
  else s

/-- The `_make_request` (legislation_scraper.py:86-114). `net k` is the outcome of
the `session.get` on the k-th attempt (`none` = a `RequestException`). On
failure with `retry_count < max_retries` the proxy is rotated and the call
recurses with `retry_count + 1`; once the budget is exhausted the exception is
re-raised (`Except.error`). -/
def make_request (cfg : RequestConfig) (net : Nat → Option α) (retry_count : Nat)
    (s : SessionState) : Except Unit α × SessionState :=
  match net retry_count with
  | some r => (Except.ok r, s)
  | none =>
    if h : retry_count < cfg.retry_attempts then
      make_request cfg net (retry_count + 1) (rotate_proxy cfg s)
    else (Except.error (), s)
termination_by cfg.retry_attempts + 1 - retry_count
decreasing_by omega

/-- Python `current_year.split(’-’)[-1]`: the suffix after the last dash. -/
def lastDashComponent (s : String) : String :=
  ((s.data.reverse.takeWhile (fun c => !(c = '-'))).reverse).asString

/-- The snapshot metadata dict written by `save_results`
(legislation_scraper.py:473-483). -/
structure SnapshotMeta where
  current_year : Option String
  current_year_id : Option String
  total_items : Nat
  scraped_at : String
  commission_used : String
  data_extraction_level : String
  pdf_links_note : String
  duplicate_checking : String
  data : List StoredRecord
deriving DecidableEq, Repr

/-- The `format` parameter of `save_results` (config default `json`). -/
inductive SaveFormat where
  | json
  | csv
deriving DecidableEq, Repr

/-- A file on disk, structurally: the JSON snapshot or the CSV rows. -/
inductive FileData where
  | jsonFile (meta : SnapshotMeta)
  | csvFile (rows : List StoredRecord)
deriving DecidableEq, Repr

/-- The `save_results` (legislation_scraper.py:456-499) as a filesystem
transformer. With an empty result list it logs and returns `None` before
touching anything. Otherwise it derives the year suffix from
`current_year.split(’-’)[-1]` (falling back to the system year), builds the
metadata and overwrites `data/extracted-data-<year>.<fmt>`. -/
def save_results (results : List StoredRecord) (current_year : Option String)
    (current_year_id : Option String) (nowYear now : String) (fmt : SaveFormat)
    (fs : String → Option FileData) : Option String × (String → Option FileData) :=
  if results.isEmpty then (none, fs)
  else
    let year :=
      match current_year with
      | some cy => lastDashComponent cy
      | none => nowYear
    match fmt with
    | SaveFormat.json =>
      let filename := "data/extracted-data-" ++ year ++ ".json"
      let meta : SnapshotMeta :=
        { current_year := current_year, current_year_id := current_year_id,
          total_items := results.length, scraped_at := now,
          commission_used := "Multiple commissions identified",
          data_extraction_level := "Enhanced with page details and PDF links",
          pdf_links_note := "Available in pdf_url field for each legislation",
          duplicate_checking := "Enabled", data := results }
      (some filename, fun p => if p = filename then some (FileData.jsonFile meta) else fs p)
    | SaveFormat.csv =>
      let filename := "data/extracted-data-" ++ year ++ ".csv"
      (some filename, fun p => if p = filename then some (FileData.csvFile results) else fs p)

/-- The outcome of `run` (legislation_scraper.py:547-617), one constructor per
return site. -/
inductive RunOutcome where
  /-- The `return False` at line 571: the legislative year could not be resolved. -/
  | yearFail
  /-- The `return True` at line 596: zero new records, snapshot reloaded. -/
  | noNewDataSuccess
  /-- The `return False` at line 599: zero new records, snapshot unreadable. -/
  | loadFail
  /-- The `return False` at line 603: zero new records and no snapshot file. -/
  | noSnapshotFail
  /-- The `return False` at line 609: `save_results` returned no filename. -/
  | saveFail
  /-- The `return True` at line 613: new records saved and summarised. -/
  | savedSuccess
  /-- The `return False` at line 617: the final `else` branch. -/
  | noResultsFail
deriving DecidableEq, Repr

/-- The `scrape_current_year_legislation` reaches `return True` on every path
(legislation_scraper.py:372): page errors `break`, ministry errors `continue`,
and no other return exists. -/
def scrape_returns_true : Bool := true

/-- The branch structure of `run` (legislation_scraper.py:580-617) after the
year is resolved: `scraping_result` is the constant `True` above, `newRecords`
is `self.results` after the crawl, `snapshotExists` is
`os.path.exists(data_file)`, `loadOk` is whether the reload parses, `saveOk`
whether `save_results` returned a filename. -/
def run_outcome (yearOk : Bool) (newRecords : List StoredRecord) (snapshotExists : Bool)
    (loadOk : Bool) (saveOk : Bool) : RunOutcome :=
  if !yearOk then RunOutcome.yearFail
  else
    let scraping_result := scrape_returns_true
    if !scraping_result then
      if snapshotExists then
        if loadOk then RunOutcome.noNewDataSuccess else RunOutcome.loadFail
      else RunOutcome.noSnapshotFail
    else if !newRecords.isEmpty then
      if saveOk then RunOutcome.savedSuccess else RunOutcome.saveFail
    else RunOutcome.noResultsFail

/-- Whether an outcome is reported as success (`run` returning `True`). -/
def run_success : RunOutcome → Bool
  | RunOutcome.noNewDataSuccess => true
  | RunOutcome.savedSuccess => true
  | _ => false

/-! ## Theorems -/

/-- C5: for every input text, law-number extraction tries the four patterns in
the fixed order (prefixed dotted, prefixed slashed, bare dotted, bare slashed)
and returns the first match’s captured group, or the empty string if no
pattern matches. -/
theorem law_number_pattern_precedence (t : String) :
    (∀ r rest, searchFirst (matchNumPrefixed '.') t.data = some (r, rest) →
      extract_law_number t = r) ∧
    (searchFirst (matchNumPrefixed '.') t.data = none →
      ∀ r rest, searchFirst (matchNumPrefixed '/') t.data = some (r, rest) →
        extract_law_number t = r) ∧
    (searchFirst (matchNumPrefixed '.') t.data = none →
      searchFirst (matchNumPrefixed '/') t.data = none →
      ∀ r rest, searchFirst (matchNumSep '.') t.data = some (r, rest) →
        extract_law_number t = r) ∧
    (searchFirst (matchNumPrefixed '.') t.data = none →
      searchFirst (matchNumPrefixed '/') t.data = none →
      searchFirst (matchNumSep '.') t.data = none →
      ∀ r rest, searchFirst (matchNumSep '/') t.data = some (r, rest) →
        extract_law_number t = r) ∧
    (searchFirst (matchNumPrefixed '.') t.data = none →
      searchFirst (matchNumPrefixed '/') t.data = none →
      searchFirst (matchNumSep '.') t.data = none →
      searchFirst (matchNumSep '/') t.data = none →
      extract_law_number t = "") := by
  refine ⟨?_, ?_, ?_, ?_, ?_⟩
  · intro r rest h
    simp [extract_law_number, h]
  · intro h1 r rest h
    simp [extract_law_number, h1, h]
  · intro h1 h2 r rest h
    simp [extract_law_number, h1, h2, h]
  · intro h1 h2 h3 r rest h
    simp [extract_law_number, h1, h2, h3, h]
  · intro h1 h2 h3 h4
    simp [extract_law_number, h1, h2, h3, h4]

/-- C5 witness: the spec’s concrete tie-break — a text containing both
`N°03.25` and a bare `12/34` yields `03.25` (prefixed-dotted wins). -/
theorem law_number_pattern_precedence_witness :
    extract_law_number "N°03.25 Loi organique 12/34" = "03.25" :=
  (law_number_pattern_precedence "N°03.25 Loi organique 12/34").1 "03.25"
    " Loi organique 12/34".data (by decide)

/-- C3 (amended): the detail-parse result’s `stage` field is `Lecture 2` when
the listing label contains `Lecture 2`, `Lecture 1` when it contains
`Lecture 1` and not `Lecture 2`; for every other label `detect_lecture_type`
reports `Unknown` but no `stage` key is written — the field is absent rather
than set to `"Unknown"`. -/
theorem stage_field_from_listing_title (label now : String) (page : DetailPage) :
    (containsSub label "Lecture 2" = true →
      (detailsBody label now page).stage = some "Lecture 2") ∧
    (containsSub label "Lecture 2" = false → containsSub label "Lecture 1" = true →
      (detailsBody label now page).stage = some "Lecture 1") ∧
    (containsSub label "Lecture 2" = false → containsSub label "Lecture 1" = false →
      (detailsBody label now page).stage = none ∧
        detect_lecture_type label = "Unknown") := by
  refine ⟨?_, ?_, ?_⟩
  · intro h
    simp [detailsBody, h]
  · intro h1 h2
    simp [detailsBody, h1, h2]
  · intro h1 h2
    constructor
    · simp [detailsBody, h1, h2]
    · simp [detect_lecture_type, h1, h2]

/-- C3 counterexample: for the label `"abc"` (no Lecture marker) the parsed
record’s `stage` field is absent (`none`), not `"Unknown"` as the claim
states. -/
theorem stage_field_counterexample :
    (detailsBody "abc" "t" ⟨none, [], [], [], [], []⟩).stage = none ∧
    decide ((detailsBody "abc" "t" ⟨none, [], [], [], [], []⟩).stage = some "Unknown") =
      false :=
  ⟨by decide, by decide⟩

/-- C3 witness: the amended claim at concrete labels. -/
theorem stage_field_witness :
    (detailsBody "Projet Lecture 2" "t" ⟨none, [], [], [], [], []⟩).stage =
      some "Lecture 2" :=
  (stage_field_from_listing_title "Projet Lecture 2" "t" ⟨none, [], [], [], [], []⟩).1
    (by decide)

/-- C8: the existence check answers true only by finding the law number in the
snapshot’s data; with force-rescrape it is constantly false, with no snapshot
file it is constantly false, and under force-rescrape the crawl’s skip test
never skips an item. -/
theorem existing_check_membership_force_and_missing (f : Bool) (l : String)
    (snap : Option (List StoredRecord)) :
    (check_existing_data f l snap = true →
      ∃ item ∈ snap.getD [], item.law_number = l) ∧
    (f = true → check_existing_data f l snap = false) ∧
    (snap = none → check_existing_data f l snap = false) ∧
    (f = true → item_skipped f l snap = false) := by
  refine ⟨?_, ?_, ?_, ?_⟩
  · intro h
    cases f with
    | true => simp [check_existing_data] at h
    | false =>
      cases snap with
      | none => simp [check_existing_data] at h
      | some data =>
        by_cases hl : l.isEmpty <;>
          simp_all [check_existing_data, List.any_eq_true]
  · intro h
    subst h
    simp [check_existing_data]
  · intro h
    subst h
    cases f <;> simp [check_existing_data]
  · intro h
    subst h
    simp [item_skipped, check_existing_data]

/-- C8 witness: with `force_rescrape=true` an item whose law number is present
in the snapshot is still neither reported existing nor skipped. -/
theorem existing_check_witness :
    check_existing_data true "03.25" (some [⟨"u", "03.25", "m", "1"⟩]) = false ∧
    item_skipped true "03.25" (some [⟨"u", "03.25", "m", "1"⟩]) = false :=
  ⟨(existing_check_membership_force_and_missing true "03.25"
      (some [⟨"u", "03.25", "m", "1"⟩])).2.1 rfl,
   (existing_check_membership_force_and_missing true "03.25"
      (some [⟨"u", "03.25", "m", "1"⟩])).2.2.2 rfl⟩

/-- C10: with an empty in-memory result list, `save_results` returns no
filepath and leaves the filesystem — in particular any prior snapshot file —
untouched. -/
theorem save_results_empty_writes_nothing (cy cyid : Option String) (ny now : String)
    (fmt : SaveFormat) (fs : String → Option FileData) :
    save_results [] cy cyid ny now fmt fs = (none, fs) ∧
    ∀ p, (save_results [] cy cyid ny now fmt fs).2 p = fs p :=
  ⟨rfl, fun _ => rfl⟩

/-- C2: evaluated where the claim says a run must succeed — zero new records
with an existing, readable snapshot — `run` takes the final `else` branch and
reports failure; moreover no environment at all can reach the
`noNewDataSuccess` return, because `scrape_current_year_legislation` returns
`True` unconditionally, so the only success outcome is `savedSuccess`. -/
theorem run_zero_new_records_reports_failure :
    run_outcome true [] true true true = RunOutcome.noResultsFail ∧
    run_success (run_outcome true [] true true true) = false ∧
    (∀ (y : Bool) (recs : List StoredRecord) (sn ld sv : Bool),
      run_success (run_outcome y recs sn ld sv) = true →
      run_outcome y recs sn ld sv = RunOutcome.savedSuccess) := by
  refine ⟨rfl, rfl, ?_⟩
  intro y recs sn ld sv h
  cases y <;> cases recs <;> cases sn <;> cases ld <;> cases sv <;>
    simp_all [run_outcome, run_success, scrape_returns_true]

/-- C2 witness: a run with new records and a successful save is the success
case the previous theorem allows. -/
theorem run_outcome_witness :
    run_success (run_outcome true [⟨"u", "1.23", "m", "1"⟩] true true true) = true ∧
    run_outcome true [⟨"u", "1.23", "m", "1"⟩] true true true =
      RunOutcome.savedSuccess :=
  ⟨by decide,
   run_zero_new_records_reports_failure.2.2 true [⟨"u", "1.23", "m", "1"⟩] true true true
     (by decide)⟩

/-- A Commission-classified block whose three-tier extraction fails
contributes nothing to the block loop’s state. -/
theorem processBlock_failed_commission (st : BlockState) (b : DpBlock)
    (hB : containsSub b.text "Bureau de la Chambre" = false)
    (hC : containsSub b.text "Commission" = true)
    (hS : containsSub b.text "Soumis à Commission" = true)
    (hN : commissionFromBlock b.text = none) :
    processBlock st b = st := by
  simp [processBlock, hB, hC, hS, hN]

/-- C6: given any fetched page, the detail parser always produces a record
(the `except` turning any fetch exception into `None` is the only failure
path), and a sub-field extraction failure is local: a Commission block on
which every pattern tier misses leaves the parsed record exactly as if the
block were not there — it never aborts the record. -/
theorem detail_parse_total_and_field_local (label now : String) (h1 : Option String)
    (anchors : List PdfAnchor) (pre post : List DpBlock) (b : DpBlock)
    (h3s h4s fbs : List RapportHeading) :
    (∀ page : DetailPage,
      extract_legislation_page_details label now (Except.ok page) =
        some (detailsBody label now page)) ∧
    (containsSub b.text "Bureau de la Chambre" = false →
      containsSub b.text "Commission" = true →
      containsSub b.text "Soumis à Commission" = true →
      commissionFromBlock b.text = none →
      detailsBody label now ⟨h1, anchors, pre ++ b :: post, h3s, h4s, fbs⟩ =
        detailsBody label now ⟨h1, anchors, pre ++ post, h3s, h4s, fbs⟩) := by
  constructor
  · intro page
    rfl
  · intro hB hC hS hN
    have hst : (pre ++ b :: post).foldl processBlock
        (⟨none, [], none, none⟩ : BlockState) =
        (pre ++ post).foldl processBlock (⟨none, [], none, none⟩ : BlockState) := by
      rw [List.foldl_append, List.foldl_append, List.foldl_cons,
        processBlock_failed_commission _ b hB hC hS hN]
    simp [detailsBody, extract_rapport_section, rapportSecs, hst]

/-- C6 witness: a concrete Commission block that defeats the strict regex, all
seven hardcoded fallbacks and the flexible regex is dropped without touching
the rest of the record. -/
theorem detail_parse_witness :
    detailsBody "L" "t"
        ⟨none, [], [⟨"Commission Soumis à Commission", []⟩], [], [], []⟩ =
      detailsBody "L" "t" ⟨none, [], [], [], [], []⟩ :=
  (detail_parse_total_and_field_local "L" "t" none [] [] []
      ⟨"Commission Soumis à Commission", []⟩ [] [] []).2
    (by decide) (by decide) (by decide) (by decide)

/-- C4 (amended): a commission’s paging loop stops at the first page carrying
the no-content marker (or at a page whose processing raises); a page with an
empty item list is not a stop signal — `check_pagination`’s result is computed
but never read — so with no marker before page `m` the loop visits exactly
pages `start..m`, whatever the item lists contain. -/
theorem commission_pass_stops_at_marker (pages : Nat → ListingPage)
    (start m fuel : Nat) :
    start ≤ m →
    (∀ q, q ≤ m → (pages q).raisesErr = false) →
    (∀ q, q < m - start → (pages (start + q)).noContent = false) →
    (pages m).noContent = true →
    m - start < fuel →
    commissionPassVisits pages fuel start = List.range' start (m - start + 1) := by
  intro hsm herr hno hmark hfuel
  induction fuel generalizing start with
  | zero => omega
  | succ f ih =>
    rcases Nat.eq_or_lt_of_le hsm with heq | hlt
    · subst heq
      simp [commissionPassVisits, herr start (Nat.le_refl start), hmark,
        Nat.sub_self, List.range']
    · have h0 : (pages start).noContent = false := by
        have := hno 0 (by omega)
        simpa using this
      have herr0 : (pages start).raisesErr = false := herr start (by omega)
      have hno' : ∀ q, q < m - (start + 1) → (pages (start + 1 + q)).noContent = false := by
        intro q hq
        have h := hno (q + 1) (by omega)
        have harith : start + (q + 1) = start + 1 + q := by omega
        rwa [harith] at h
      have hrec := ih (start + 1) hlt hno' (by omega)
      have hlen : m - start + 1 = (m - (start + 1) + 1) + 1 := by omega
      simp only [commissionPassVisits, herr0, h0, Bool.false_eq_true, if_false, hrec]
      rw [hlen]
      simp [List.range'_succ]

/-- C4 counterexample: page 1 has no marker and an empty item list, page 2
carries the marker; the loop still continues to page 2, so an empty page is
not treated as a stop signal. -/
theorem commission_pass_counterexample :
    commissionPassVisits
        (fun n => if n = 2 then ⟨true, [], false, false⟩ else ⟨false, [], false, true⟩)
        5 1 = [1, 2] ∧
    (if (1 : Nat) = 2 then (⟨true, [], false, false⟩ : ListingPage)
        else ⟨false, [], false, true⟩).items = [] ∧
    decide (commissionPassVisits
        (fun n => if n = 2 then ⟨true, [], false, false⟩ else ⟨false, [], false, true⟩)
        5 1 = [1]) = false :=
  ⟨by decide, by decide, by decide⟩

/-- C4 witness: the amended statement at the same concrete page stream. -/
theorem commission_pass_witness :
    commissionPassVisits
        (fun n => if n = 2 then ⟨true, [], false, false⟩ else ⟨false, [], false, true⟩)
        5 1 = List.range' 1 2 := by
  have h := commission_pass_stops_at_marker
    (fun n => if n = 2 then ⟨true, [], false, false⟩ else ⟨false, [], false, true⟩)
    1 2 5 (by decide) ?_ ?_ (by decide) (by decide)
  · exact h
  · intro q hq
    interval_cases q
    all_goals decide
  · intro q hq
    interval_cases q
    all_goals decide

/-- When the first `j - rc` attempts from `rc` fail and attempt `j` succeeds,
`make_request` returns that response with the proxy rotated once per failure. -/
theorem make_request_first_success (cfg : RequestConfig) (net : Nat → Option α)
    (r : α) : ∀ (j rc : Nat) (s : SessionState), rc ≤ j → j ≤ cfg.retry_attempts →
    (∀ k, rc ≤ k → k < j → net k = none) → net j = some r →
    make_request cfg net rc s = (Except.ok r, (rotate_proxy cfg)^[j - rc] s) := by
  intro j
  suffices h : ∀ n rc s, j - rc = n → rc ≤ j → j ≤ cfg.retry_attempts →
      (∀ k, rc ≤ k → k < j → net k = none) → net j = some r →
      make_request cfg net rc s = (Except.ok r, (rotate_proxy cfg)^[j - rc] s) by
    intro rc s h1 h2 h3 h4
    exact h (j - rc) rc s rfl h1 h2 h3 h4
  intro n
  induction n with
  | zero =>
    intro rc s hd hrc hj _ hj'
    have : rc = j := by omega
    subst this
    rw [make_request, hj']
    simp [Nat.sub_self]
  | succ n ih =>
    intro rc s hd hrc hj hfail hj'
    have hlt : rc < j := by omega
    have h0 : net rc = none := hfail rc (Nat.le_refl rc) hlt
    rw [make_request, h0]
    simp only [dif_pos (by omega : rc < cfg.retry_attempts)]
    have hrec := ih (rc + 1) (rotate_proxy cfg s) (by omega) (by omega) hj
      (fun k h1 h2 => hfail k (by omega) h2) hj'
    rw [hrec, ← Function.iterate_succ_apply]
    have harith : j - rc = (j - (rc + 1)) + 1 := by omega
    rw [harith]

/-- When every attempt up to the budget fails, `make_request` ends in the
re-raised error after rotating once per retried attempt. -/
theorem make_request_exhausts (cfg : RequestConfig) (net : Nat → Option α) :
    ∀ (rc : Nat) (s : SessionState), rc ≤ cfg.retry_attempts →
    (∀ k, rc ≤ k → k ≤ cfg.retry_attempts → net k = none) →
    make_request cfg net rc s =
      (Except.error (), (rotate_proxy cfg)^[cfg.retry_attempts - rc] s) := by
  suffices h : ∀ n rc s, cfg.retry_attempts - rc = n → rc ≤ cfg.retry_attempts →
      (∀ k, rc ≤ k → k ≤ cfg.retry_attempts → net k = none) →
      make_request cfg net rc s =
        (Except.error (), (rotate_proxy cfg)^[cfg.retry_attempts - rc] s) by
    intro rc s h1 h2
    exact h (cfg.retry_attempts - rc) rc s rfl h1 h2
  intro n
  induction n with
  | zero =>
    intro rc s hd hrc hfail
    have hrceq : rc = cfg.retry_attempts := by omega
    rw [make_request, hfail rc (Nat.le_refl rc) hrc]
    simp [hrceq, Nat.lt_irrefl, Nat.sub_self]
  | succ n ih =>
    intro rc s hd hrc hfail
    have h0 : net rc = none := hfail rc (Nat.le_refl rc) hrc
    rw [make_request, h0]
    simp only [dif_pos (by omega : rc < cfg.retry_attempts)]
    have hrec := ih (rc + 1) (rotate_proxy cfg s) (by omega) (by omega)
      (fun k h1 h2 => hfail k (by omega) h2)
    rw [hrec, ← Function.iterate_succ_apply]
    have harith : cfg.retry_attempts - rc = (cfg.retry_attempts - (rc + 1)) + 1 := by
      omega
    rw [harith]

/-- With proxies, rotation and a nonempty list enabled, iterating
`rotate_proxy` advances the shared cursor by one each time and installs
`proxies[index % len]`. -/
theorem rotate_proxy_iterate (cfg : RequestConfig)
    (henable : cfg.enable_proxies = true) (hrot : cfg.proxy_rotation = true)
    (hne : cfg.proxies.isEmpty = false) :
    ∀ (n : Nat) (s : SessionState),
      ((rotate_proxy cfg)^[n] s).current_proxy_index = s.current_proxy_index + n ∧
      (0 < n → ((rotate_proxy cfg)^[n] s).session_proxy =
        cfg.proxies[(s.current_proxy_index + n) % cfg.proxies.length]?) := by
  intro n
  induction n with
  | zero => intro s; exact ⟨rfl, by omega⟩
  | succ k ih =>
    intro s
    have hrot1 : rotate_proxy cfg s =
        ⟨s.current_proxy_index + 1,
          cfg.proxies[(s.current_proxy_index + 1) % cfg.proxies.length]?⟩ := by
      simp [rotate_proxy, henable, hrot, hne]
    rw [Function.iterate_succ_apply, hrot1]
    rcases ih ⟨s.current_proxy_index + 1,
        cfg.proxies[(s.current_proxy_index + 1) % cfg.proxies.length]?⟩ with ⟨hidx, hses⟩
    constructor
    · simpa [Nat.add_assoc, Nat.add_comm, Nat.add_left_comm] using hidx
    · intro _
      cases k with
      | zero => simp
      | succ k' =>
        have := hses (by omega)
        simpa [Nat.add_assoc, Nat.add_comm, Nat.add_left_comm] using this

/-- C9: a fetch retries a failed request up to the configured retry budget —
if the first `j ≤ budget` attempts fail and attempt `j` succeeds the response
is returned after exactly `j` proxy rotations; if all `budget + 1` attempts
fail the error propagates to the caller — and each rotation advances the
shared round-robin cursor, installing `proxies[cursor % len]`. -/
theorem fetch_retry_budget_and_rotation (cfg : RequestConfig) (net : Nat → Option α)
    (s : SessionState) :
    (∀ j r, j ≤ cfg.retry_attempts → (∀ k, k < j → net k = none) → net j = some r →
      make_request cfg net 0 s = (Except.ok r, (rotate_proxy cfg)^[j] s)) ∧
    ((∀ k, k ≤ cfg.retry_attempts → net k = none) →
      make_request cfg net 0 s =
        (Except.error (), (rotate_proxy cfg)^[cfg.retry_attempts] s)) ∧
    (cfg.enable_proxies = true → cfg.proxy_rotation = true →
      cfg.proxies.isEmpty = false → ∀ n, 0 < n →
      ((rotate_proxy cfg)^[n] s).current_proxy_index = s.current_proxy_index + n ∧
      ((rotate_proxy cfg)^[n] s).session_proxy =
        cfg.proxies[(s.current_proxy_index + n) % cfg.proxies.length]?) := by
  refine ⟨?_, ?_, ?_⟩
  · intro j r hj hfail hok
    have := make_request_first_success cfg net r j 0 s (Nat.zero_le j) hj
      (fun k _ h2 => hfail k h2) hok
    simpa using this
  · intro hfail
    have := make_request_exhausts cfg net 0 s (Nat.zero_le _)
      (fun k _ h2 => hfail k h2)
    simpa using this
  · intro henable hrot hne n hn
    exact ⟨(rotate_proxy_iterate cfg henable hrot hne n s).1,
      (rotate_proxy_iterate cfg henable hrot hne n s).2 hn⟩

/-- C9 witness: with a budget of 2 retries and two proxies, two failures then
a success return the response with the cursor advanced twice and `p0`
(index 2 mod 2) installed. -/
theorem fetch_retry_witness :
    make_request ⟨2, true, true, ["p0", "p1"]⟩
        (fun k => if k = 2 then some "resp" else none) 0 ⟨0, none⟩ =
      (Except.ok "resp", ⟨2, some "p0"⟩) := by
  have h := (fetch_retry_budget_and_rotation ⟨2, true, true, ["p0", "p1"]⟩
      (fun k => if k = 2 then some "resp" else none) ⟨0, none⟩).1 2 "resp"
    (by decide) (by decide) rfl
  rw [h]
  rfl

/-- The `seen_files` set makes one section’s collected file URLs pairwise
distinct and disjoint from the initial set. -/
theorem collectSectionFiles_nodup (as : List PdfAnchor) : ∀ seen : List String,
    ((collectSectionFiles as seen).map (fun f => f.url)).Nodup ∧
    ∀ u ∈ (collectSectionFiles as seen).map (fun f => f.url), u ∉ seen := by
  induction as with
  | nil => intro seen; simp [collectSectionFiles]
  | cons a rest ih =>
    intro seen
    by_cases hc : urljoin base_url a.href ∈ seen
    · simpa [collectSectionFiles, hc] using ih seen
    · obtain ⟨ihn, ihm⟩ := ih (urljoin base_url a.href :: seen)
      simp only [collectSectionFiles]
      rw [if_neg (by simpa using hc)]
      simp only [List.map_cons, List.nodup_cons]
      refine ⟨⟨?_, ihn⟩, ?_⟩
      · intro habs
        have := ihm _ habs
        simp at this
      · intro v hv
        rcases List.mem_cons.mp hv with heq | hmem
        · subst heq; exact hc
        · have := ihm v hmem
          intro hvs
          exact this (List.mem_cons_of_mem _ hvs)

/-- Every anchor whose resolved URL is not already seen contributes its URL to
the collected files. -/
theorem collectSectionFiles_mem (as : List PdfAnchor) : ∀ (seen : List String)
    (a : PdfAnchor), a ∈ as → urljoin base_url a.href ∉ seen →
    urljoin base_url a.href ∈ (collectSectionFiles as seen).map (fun f => f.url) := by
  induction as with
  | nil => simp
  | cons b rest ih =>
    intro seen a ha hns
    rcases List.mem_cons.mp ha with heq | hmem
    · subst heq
      simp only [collectSectionFiles]
      rw [if_neg (by simpa using hns)]
      simp
    · by_cases hcb : urljoin base_url b.href ∈ seen
      · simp only [collectSectionFiles]
        rw [if_pos (by simpa using hcb)]
        exact ih seen a hmem hns
      · simp only [collectSectionFiles]
        rw [if_neg (by simpa using hcb)]
        simp only [List.map_cons]
        by_cases hub : urljoin base_url a.href = urljoin base_url b.href
        · simp [hub]
        · refine List.mem_cons_of_mem _ ?_
          refine ih (urljoin base_url b.href :: seen) a hmem ?_
          simp only [List.mem_cons]
          rintro (h | h)
          · exact hub h
          · exact hns h

/-- One section’s files carry pairwise distinct URLs. -/
theorem sectionFiles_url_nodup (h : RapportHeading) :
    ((sectionFiles h).map (fun f => f.url)).Nodup := by
  cases hca : h.containerAnchors with
  | none => simp [sectionFiles, hca]
  | some as =>
    simp only [sectionFiles, hca]
    exact (collectSectionFiles_nodup _ []).1

/-- C7: when one rapport heading matches, the extracted section’s file list
never holds two entries with the same resolved URL — each `.pdf` anchor of the
located container appears exactly once however often it occurs — and the
extraction returns nothing when no heading matches or when every located
container yields zero PDF files. -/
theorem rapport_section_dedup_and_empty (page : DetailPage) :
    (rapportSecs page = [] → extract_rapport_section page = none) ∧
    ((∀ h ∈ rapportSecs page, sectionFiles h = []) →
      extract_rapport_section page = none) ∧
    (∀ h, rapportSecs page = [h] →
      ∀ d, extract_rapport_section page = some d →
        (d.files.map (fun f => f.url)).Nodup ∧
        (∀ u, (d.files.map (fun f => f.url)).count u ≤ 1) ∧
        (∀ as, h.containerAnchors = some as →
          ∀ a ∈ as, endsWithPdf a.href = true →
            urljoin base_url a.href ∈ d.files.map (fun f => f.url))) := by
  refine ⟨?_, ?_, ?_⟩
  · intro h
    simp [extract_rapport_section, h]
  · intro h
    cases hsecs : rapportSecs page with
    | nil => simp [extract_rapport_section, hsecs]
    | cons s rest =>
      have h1 : sectionFiles s = [] := h s (hsecs ▸ List.mem_cons_self s rest)
      have h2 : ∀ x ∈ rest, sectionFiles x = [] := fun x hx =>
        h x (hsecs ▸ List.mem_cons_of_mem _ hx)
      simp only [extract_rapport_section, hsecs]
      simp [h1]
      exact h2
  · intro h hsec d hd
    unfold extract_rapport_section at hd
    rw [hsec] at hd
    by_cases hfe : (sectionFiles h).isEmpty
    · simp [hfe] at hd
    · have hfe' : (([h].map sectionFiles).flatten).isEmpty = false := by
        simpa using hfe
      simp only [List.isEmpty_cons, hfe', Bool.false_eq_true, if_false] at hd
      have hdf : d.files = sectionFiles h := by
        cases hd' : hd.symm with
        | refl => simp
      rw [hdf]
      refine ⟨sectionFiles_url_nodup h, ?_, ?_⟩
      · exact fun u => List.nodup_iff_count_le_one.mp (sectionFiles_url_nodup h) u
      · intro as hca a hmem hpdf
        simp only [sectionFiles, hca]
        refine collectSectionFiles_mem _ [] a ?_ (by simp)
        exact List.mem_filter.mpr ⟨hmem, hpdf⟩

/-- C7 witness: a container holding two anchors with the same resolved PDF URL
yields exactly one file entry. -/
theorem rapport_section_dedup_witness :
    extract_rapport_section
        ⟨none, [], [],
          [⟨"Rapport de la Commission",
            some [⟨"A", "/doc1.pdf", none⟩, ⟨"B", "/doc1.pdf", none⟩]⟩], [], []⟩ =
      some ⟨"Rapport de la Commission",
        [⟨"A", "https://www.chambredesrepresentants.ma/doc1.pdf", "doc1.pdf", none⟩]⟩ ∧
    (([⟨"A", "https://www.chambredesrepresentants.ma/doc1.pdf", "doc1.pdf",
        (none : Option String)⟩] : List RapportFile).map (fun f => f.url)).Nodup :=
  ⟨by decide,
   by
    have h := (rapport_section_dedup_and_empty
        ⟨none, [], [],
          [⟨"Rapport de la Commission",
            some [⟨"A", "/doc1.pdf", none⟩, ⟨"B", "/doc1.pdf", none⟩]⟩], [], []⟩).2.2
      ⟨"Rapport de la Commission",
        some [⟨"A", "/doc1.pdf", none⟩, ⟨"B", "/doc1.pdf", none⟩]⟩ (by decide)
      ⟨"Rapport de la Commission",
        [⟨"A", "https://www.chambredesrepresentants.ma/doc1.pdf", "doc1.pdf", none⟩]⟩
      (by decide)
    exact h.1⟩

/-- Overwriting the ministry fields twice keeps only the last assignment. -/
theorem assignMinistry_assignMinistry (m m' : MinistryFilter) (r : StoredRecord) :
    assignMinistry m (assignMinistry m' r) = assignMinistry m r := rfl

/-- The `listModify` at an index, observed through `getElem?`. -/
theorem listModify_getElem? (f : α → α) : ∀ (l : List α) (j i : Nat),
    (listModify f j l)[i]? = if i = j then (l[i]?).map f else l[i]? := by
  intro l
  induction l with
  | nil => intro j i; simp [listModify]
  | cons a t ih =>
    intro j i
    cases j with
    | zero =>
      cases i with
      | zero => simp [listModify]
      | succ i' => simp [listModify]
    | succ j' =>
      cases i with
      | zero => simp [listModify]
      | succ i' =>
        simp only [listModify, List.getElem?_cons_succ]
        rw [ih j' i']
        by_cases hij : i' = j' <;> simp [hij]

/-- One ministry pass, observed at a record index: the record is assigned this
ministry exactly when some href on the page reaches its index through the
legislation map. -/
theorem ministryPass_getElem? (map0 : String → Option Nat) (m : MinistryFilter) :
    ∀ (links : List String) (recs : List StoredRecord) (i : Nat) (r : StoredRecord),
    recs[i]? = some r →
    (ministryPass map0 m links recs)[i]? =
      some (if links.any (fun h => map0 h == some i) then assignMinistry m r else r) := by
  intro links
  induction links with
  | nil => intro recs i r hr; simpa [ministryPass] using hr
  | cons href rest ih =>
    intro recs i r hr
    cases hm : map0 href with
    | none =>
      have hstep : ministryPass map0 m (href :: rest) recs =
          ministryPass map0 m rest recs := by
        simp [ministryPass, hm]
      rw [hstep, ih recs i r hr]
      have hbeq : (map0 href == some i) = false := by rw [hm]; rfl
      rw [List.any_cons]
      simp [hbeq]
    | some j =>
      have hstep : ministryPass map0 m (href :: rest) recs =
          ministryPass map0 m rest (listModify (assignMinistry m) j recs) := by
        simp [ministryPass, hm]
      by_cases hij : i = j
      · subst hij
        have hr' : (listModify (assignMinistry m) i recs)[i]? =
            some (assignMinistry m r) := by
          rw [listModify_getElem?]
          simp [hr]
        rw [hstep, ih _ i _ hr']
        have hbeq : (map0 href == some i) = true := by rw [hm]; simp
        rw [List.any_cons]
        simp [hbeq, assignMinistry_assignMinistry]
      · have hr' : (listModify (assignMinistry m) j recs)[i]? = some r := by
          rw [listModify_getElem?]
          simp [hij, hr]
        rw [hstep, ih _ i _ hr']
        have hbeq : (map0 href == some i) = false := by
          rw [hm]
          exact beq_eq_false_iff_ne.mpr (fun hc => hij (Option.some.inj hc).symm)
        rw [List.any_cons]
        simp [hbeq]

/-- The whole sweep, observed at a record index: it is the per-record fold of
the conditional assignments, in ministry order. -/
theorem identify_fold_getElem? (map0 : String → Option Nat)
    (links : MinistryFilter → List String) :
    ∀ (ms : List MinistryFilter) (recs : List StoredRecord) (i : Nat) (r : StoredRecord),
    recs[i]? = some r →
    (ms.foldl (fun recs m => ministryPass map0 m (links m) recs) recs)[i]? =
      some (ms.foldl
        (fun x m => if (links m).any (fun h => map0 h == some i) then assignMinistry m x
          else x) r) := by
  intro ms
  induction ms with
  | nil => intro recs i r hr; simpa using hr
  | cons m ms ih =>
    intro recs i r hr
    simp only [List.foldl_cons]
    by_cases hc : (links m).any (fun h => map0 h == some i)
    · have := ministryPass_getElem? map0 m (links m) recs i r hr
      rw [if_pos hc] at this
      rw [ih _ i _ this, if_pos hc]
    · have := ministryPass_getElem? map0 m (links m) recs i r hr
      rw [if_neg hc] at this
      rw [ih _ i _ this, if_neg hc]

/-- The conditional-assignment fold keeps exactly the last matching ministry. -/
theorem condAssign_foldl_getLast (P : MinistryFilter → Bool) :
    ∀ (ms : List MinistryFilter) (r : StoredRecord),
    ms.foldl (fun x m => if P m then assignMinistry m x else x) r =
      (match (ms.filter P).getLast? with
       | some m => assignMinistry m r
       | none => r) := by
  intro ms
  induction ms with
  | nil => intro r; rfl
  | cons m ms ih =>
    intro r
    by_cases hp : P m
    · simp only [List.foldl_cons, if_pos hp, List.filter_cons_of_pos hp]
      rw [ih (assignMinistry m r)]
      cases hl : (ms.filter P).getLast? with
      | none =>
        have hnil : ms.filter P = [] := List.getLast?_eq_none_iff.mp hl
        rw [hnil]
        rfl
      | some mlast =>
        rw [List.getLast?_cons, hl]
        simp [assignMinistry_assignMinistry]
    · simp only [List.foldl_cons, if_neg hp, List.filter_cons_of_neg hp]
      exact ih r

/-- Soundness of `findLastIdx`: a found index holds a witness of `p`. -/
theorem findLastIdx_sound (p : α → Bool) : ∀ (l : List α) (i : Nat),
    findLastIdx p l = some i → ∃ x, l[i]? = some x ∧ p x = true := by
  intro l
  induction l with
  | nil => intro i h; simp [findLastIdx] at h
  | cons a t ih =>
    intro i h
    cases ht : findLastIdx p t with
    | some k =>
      rw [findLastIdx, ht] at h
      obtain ⟨x, hx, hpx⟩ := ih k ht
      cases h
      exact ⟨x, by simpa using hx, hpx⟩
    | none =>
      rw [findLastIdx, ht] at h
      by_cases hpa : p a
      · rw [if_pos hpa] at h
        cases h
        exact ⟨a, by simp, hpa⟩
      · rw [if_neg hpa] at h
        exact Option.noConfusion h

/-- When the index satisfying `p` is unique, `findLastIdx` finds it. -/
theorem findLastIdx_unique (p : α → Bool) : ∀ (l : List α) (i : Nat) (x : α),
    l[i]? = some x → p x = true → (∀ j y, l[j]? = some y → p y = true → j = i) →
    findLastIdx p l = some i := by
  intro l
  induction l with
  | nil => intro i x hx _ _; simp at hx
  | cons a t ih =>
    intro i x hx hp huniq
    cases i with
    | zero =>
      have hxa : a = x := by simpa using hx
      have hpa : p a = true := by rw [hxa]; exact hp
      cases ht : findLastIdx p t with
      | some k =>
        obtain ⟨y, hy, hpy⟩ := findLastIdx_sound p t k ht
        have : k + 1 = 0 := huniq (k + 1) y (by simpa using hy) hpy
        omega
      | none =>
        rw [findLastIdx, ht, if_pos hpa]
    | succ i' =>
      have hx' : t[i']? = some x := by simpa using hx
      have huniq' : ∀ j y, t[j]? = some y → p y = true → j = i' := by
        intro j y hy hpy
        have := huniq (j + 1) y (by simpa using hy) hpy
        omega
      rw [findLastIdx, ih i' x hx' hp huniq']

/-- Under the preconditions of the backfill (pairwise distinct, nonempty
urls), the legislation map reaches index `i` exactly on that record’s url. -/
theorem legMapLookup_eq_iff (records : List StoredRecord) (i : Nat) (r : StoredRecord)
    (hr : records[i]? = some r)
    (hnd : (records.map (fun x => x.url)).Nodup)
    (hne : ∀ x ∈ records, x.url.isEmpty = false) :
    ∀ h, (legMapLookup records h = some i ↔ h = r.url) := by
  have hidx : ∀ (j : Nat) (y : StoredRecord), records[j]? = some y → y.url = r.url →
      j = i := by
    intro j y hy hyu
    have hj' : j < records.length := by
      by_contra hc
      rw [List.getElem?_eq_none (by omega)] at hy
      exact Option.noConfusion hy
    have hi' : i < records.length := by
      by_contra hc
      rw [List.getElem?_eq_none (by omega)] at hr
      exact Option.noConfusion hr
    have hmapj : (records.map (fun x => x.url))[j]? = some r.url := by
      rw [List.getElem?_map, hy]
      simp [hyu]
    have hmapi : (records.map (fun x => x.url))[i]? = some r.url := by
      rw [List.getElem?_map, hr]
      simp
    have hj'' : j < (records.map (fun x => x.url)).length := by simpa using hj'
    have hi'' : i < (records.map (fun x => x.url)).length := by simpa using hi'
    rw [List.getElem?_eq_getElem hj''] at hmapj
    rw [List.getElem?_eq_getElem hi''] at hmapi
    have heq : (records.map (fun x => x.url))[j] = (records.map (fun x => x.url))[i] := by
      rw [Option.some.injEq] at hmapj hmapi
      rw [hmapj, hmapi]
    exact (List.Nodup.getElem_inj_iff hnd).mp heq
  intro h
  constructor
  · intro hl
    unfold legMapLookup at hl
    by_cases hh : h.isEmpty
    · rw [if_pos hh] at hl
      exact Option.noConfusion hl
    · rw [if_neg hh] at hl
      obtain ⟨x, hx, hpx⟩ := findLastIdx_sound _ records i hl
      have hxr : x = r := by
        rw [hx] at hr
        exact (Option.some.injEq _ _ ▸ hr :)
      subst hxr
      exact (by simpa using hpx : x.url = h).symm
  · intro hh
    subst hh
    have hru : r.url.isEmpty = false := hne r (List.getElem?_mem hr)
    unfold legMapLookup
    rw [if_neg (by simp [hru])]
    refine findLastIdx_unique _ records i r hr (by simp) ?_
    intro j y hy hpy
    exact hidx j y hy (by simpa using hpy)

/-- C1 (amended): after the ministry backfill sweep, a record’s ministry
id/name is the one from the LAST ministry filter (in the fixed iteration
order) whose page links its URL — each matching filter’s pass overwrites the
previous assignment — and a record linked by no ministry page is left
unchanged, keeping its `To be identified` defaults. -/
theorem ministry_backfill_last_filter_wins (ministries : List MinistryFilter)
    (links : MinistryFilter → List String) (records : List StoredRecord) (i : Nat)
    (r : StoredRecord) :
    records[i]? = some r →
    (records.map (fun x => x.url)).Nodup →
    (∀ x ∈ records, x.url.isEmpty = false) →
    (identify_ministries ministries links records)[i]? =
      some (match (ministries.filter (fun m => (links m).contains r.url)).getLast? with
            | some m => assignMinistry m r
            | none => r) := by
  intro hr hnd hne
  have hmap := legMapLookup_eq_iff records i r hr hnd hne
  have hcond : ∀ m : MinistryFilter,
      ((links m).any (fun h => legMapLookup records h == some i)) =
        ((links m).contains r.url) := by
    intro m
    have hpt : ∀ h : String, (legMapLookup records h == some i) = (r.url == h) := by
      intro h
      by_cases hh : h = r.url
      · have hlook := (hmap h).mpr hh
        subst hh
        simp [hlook]
      · have h1 : legMapLookup records h ≠ some i := fun hc => hh ((hmap h).mp hc)
        have hl : (legMapLookup records h == some i) = false :=
          beq_eq_false_iff_ne.mpr h1
        have hrr : (r.url == h) = false :=
          beq_eq_false_iff_ne.mpr (fun hc => hh hc.symm)
        rw [hl, hrr]
    calc (links m).any (fun h => legMapLookup records h == some i)
        = (links m).any (fun h => r.url == h) := by
          induction links m with
          | nil => rfl
          | cons a t iht =>
            rw [List.any_cons, List.any_cons, iht]
            simp only [hpt a]
      _ = (links m).contains r.url := by
          induction links m with
          | nil => rfl
          | cons a t iht =>
            rw [List.any_cons, List.contains_cons, iht]
  rw [identify_ministries, identify_fold_getElem? _ links ministries records i r hr]
  rw [condAssign_foldl_getLast]
  have hfilter : ministries.filter
        (fun m => (links m).any (fun h => legMapLookup records h == some i)) =
      ministries.filter (fun m => (links m).contains r.url) := by
    apply List.filter_congr
    intro m _
    rw [hcond m]
  rw [hfilter]

/-- C1 counterexample: one record whose URL is linked on both ministry pages
ends carrying the SECOND ministry’s id/name, not the first’s as the claim
states. -/
theorem ministry_backfill_counterexample :
    (identify_ministries [⟨"1", "M1"⟩, ⟨"2", "M2"⟩] (fun _ => ["u"])
        [⟨"u", "03.25", "To be identified", "To be identified"⟩]).map
        (fun r => r.ministry) = ["M2"] ∧
    decide ((identify_ministries [⟨"1", "M1"⟩, ⟨"2", "M2"⟩] (fun _ => ["u"])
        [⟨"u", "03.25", "To be identified", "To be identified"⟩]).map
        (fun r => r.ministry) = ["M1"]) = false :=
  ⟨by decide, by decide⟩

/-- C1 witness: the amended claim at the same concrete input — the last
matching filter `M2` claims the record. -/
theorem ministry_backfill_witness :
    (identify_ministries [⟨"1", "M1"⟩, ⟨"2", "M2"⟩] (fun _ => ["u"])
        [⟨"u", "03.25", "To be identified", "To be identified"⟩])[0]? =
      some ⟨"u", "03.25", "M2", "2"⟩ := by
  have h := ministry_backfill_last_filter_wins [⟨"1", "M1"⟩, ⟨"2", "M2"⟩]
    (fun _ => ["u"]) [⟨"u", "03.25", "To be identified", "To be identified"⟩] 0
    ⟨"u", "03.25", "To be identified", "To be identified"⟩ rfl (by decide) (by decide)
  rw [h]
  rfl

end ParliamentScraper
